import Mathlib

/-!
Verification development for the movie-recommendation chat backend
(`packages/backend`): a shallow embedding of the user service, the chat
service (user creation, AI-assistant bootstrap, AI-message migration,
room history query), the recommendation pipeline (`generateAIResponse`
with its provider fallback chain), and the socket handlers
(`join_room`, `get_messages` projection).

Text is modelled as `List Char` (`Str`), JavaScript string helpers
(`trim`, `toLowerCase`, truthiness) are embedded explicitly, the
relational store is modelled as a list of rows, and fallible operations
return `Except`.
-/

namespace MovieRec

/-- Text in the embedding: JavaScript strings as lists of characters. -/
abbrev Str := List Char

/-- Coerce a Lean string literal to the embedding's text type. -/
def str (s : String) : Str := s.data

/-- JavaScript `String.prototype.trim`: drop whitespace at both ends. -/
def jsTrim (l : Str) : Str :=
  ((l.dropWhile Char.isWhitespace).reverse.dropWhile Char.isWhitespace).reverse

/-- JavaScript `String.prototype.toLowerCase` (ASCII-relevant part). -/
def jsToLower (l : Str) : Str := l.map Char.toLower

/-- JavaScript string truthiness of a possibly-`undefined` string:
`undefined` and `""` are falsy, every other string is truthy. -/
def truthyStr : Option Str → Bool
  | none => false
  | some s => !s.isEmpty

/-- Split a string at every occurrence of a separator character
(used to embed the one-`@` structure of the email regex). -/
def splitOnChar (sep : Char) : Str → List Str
  | [] => [[]]
  | c :: cs =>
    match splitOnChar sep cs with
    | [] => if c = sep then [[], []] else [[c]]
    | r :: rs => if c = sep then [] :: r :: rs else (c :: r) :: rs

/-- `MessageType` enum from `entities/Message.ts`. -/
inductive MessageType where
  | user
  | ai
  | system
deriving DecidableEq

/-- `Message` entity row (`entities/Message.ts`): uuid primary key,
content, author-kind tag, creation timestamp (modelled as `Nat`),
author and room foreign keys. -/
structure Message where
  id : Str
  content : Str
  type : MessageType
  createdAt : Nat
  userId : Str
  chatRoomId : Str
deriving DecidableEq

/-- `User` entity row (`entities/User.ts`): uuid primary key, unique
username, optional email, active flag. Timestamps are omitted: no
claim mentions them. -/
structure User where
  id : Str
  username : Str
  email : Option Str
  isActive : Bool
deriving DecidableEq

/-- The user table, in insertion order. -/
abbrev UserStore := List User

/-- `UserValidationError` from `services/UserService.ts`. -/
structure UserValidationError where
  field : Str
  message : Str
deriving DecidableEq

/-- `userRepo.findOne({ where: { username } })`: first row whose
username column equals the argument. -/
def findByUsername (store : UserStore) (name : Str) : Option User :=
  store.find? (fun u => u.username == name)

/-- `userRepo.findOne({ where: { email } })`: first row whose email
column equals the argument (rows with SQL NULL email never match). -/
def findByEmail (store : UserStore) (e : Str) : Option User :=
  store.find? (fun u => u.email == some e)

/-- The character class of the username regex `/^[a-zA-Z0-9_-]+$/`. -/
def isValidUsernameChar (c : Char) : Bool :=
  ('a' ≤ c && c ≤ 'z') || ('A' ≤ c && c ≤ 'Z') || ('0' ≤ c && c ≤ '9')
    || c == '_' || c == '-'

/-- Test of the username regex `/^[a-zA-Z0-9_-]+$/`. -/
def usernameRegexOk (s : Str) : Bool :=
  !s.isEmpty && s.all isValidUsernameChar

/-- A maximal `[^\s@]+` atom of the email regex: non-empty, no
whitespace, no `@`. -/
def emailAtomOk (s : Str) : Bool :=
  !s.isEmpty && s.all (fun c => !c.isWhitespace && c != '@')

/-- The domain part `[^\s@]+\.[^\s@]+` of the email regex: a valid atom
that contains a dot with at least one character on each side. -/
def emailDomainOk (s : Str) : Bool :=
  emailAtomOk s && ((s.drop 1).dropLast.contains '.')

/-- Test of the email regex `/^[^\s@]+@[^\s@]+\.[^\s@]+$/`: exactly one
`@`, valid local part, domain part containing an inner dot. -/
def emailRegexOk (e : Str) : Bool :=
  match splitOnChar '@' e with
  | [localPart, domainPart] => emailAtomOk localPart && emailDomainOk domainPart
  | _ => false

/-- `UserService.validateUserData`, applied (as in the source) to the
already-sanitized data. `!data.username` is true exactly for the empty
string; `if (data.email)` skips validation for `undefined` and `""`. -/
def validateUserData (username : Str) (email : Option Str) : List UserValidationError :=
  let usernameErrors :=
    if username.isEmpty then [⟨str "username", str "Username is required"⟩]
    else
      (if username.length < 2 then
        [⟨str "username", str "Username must be at least 2 characters long"⟩] else []) ++
      (if username.length > 50 then
        [⟨str "username", str "Username must be less than 50 characters long"⟩] else []) ++
      (if !usernameRegexOk username then
        [⟨str "username", str "Username can only contain letters, numbers, underscores, and dashes"⟩]
       else [])
  let emailErrors :=
    match email with
    | some e =>
      if !e.isEmpty then
        (if !emailRegexOk e then [⟨str "email", str "Invalid email format"⟩] else []) ++
        (if e.length > 255 then
          [⟨str "email", str "Email must be less than 255 characters long"⟩] else [])
      else []
    | none => []
  usernameErrors ++ emailErrors

/-- `UserService.sanitizeUserData` on the username: `trim().toLowerCase()`. -/
def sanitizeUsername (u : Str) : Str := jsToLower (jsTrim u)

/-- `UserService.sanitizeUserData` on the optional email. -/
def sanitizeEmail (e : Option Str) : Option Str := e.map (fun x => jsToLower (jsTrim x))

/-- The uuid generated for a newly inserted row, modelled as an
identifier derived from the table size; the model relies only on a
just-generated id resolving back to the row it was assigned to. -/
def freshIdOf (store : UserStore) : Str := str "uid-" ++ Nat.toDigits 10 store.length

/-- Result shape of `UserService.createUser`:
`{ success: true, user }` or `{ success: false, errors }`. -/
inductive CreateUserResult where
  | success (user : User)
  | failure (errors : List UserValidationError)
deriving DecidableEq

/-- `UserService.createUser`: sanitize, validate, reject a duplicate
username, reject a duplicate (truthy) email, otherwise insert the new
row with `isActive` defaulted to true and return its response. The
surrounding catch-all (which maps store exceptions to a general error)
has no sequentially reachable trigger in this model and is omitted. -/
def userServiceCreateUser (store : UserStore) (username : Str) (email : Option Str) :
    CreateUserResult × UserStore :=
  let sanUsername := sanitizeUsername username
  let sanEmail := sanitizeEmail email
  let validationErrors := validateUserData sanUsername sanEmail
  if !validationErrors.isEmpty then (.failure validationErrors, store)
  else if (findByUsername store sanUsername).isSome then
    (.failure [⟨str "username", str "Username already exists"⟩], store)
  else
    let emailConflict :=
      match sanEmail with
      | some e => !e.isEmpty && (findByEmail store e).isSome
      | none => false
    if emailConflict then (.failure [⟨str "email", str "Email already exists"⟩], store)
    else
      let newUser : User :=
        { id := freshIdOf store, username := sanUsername, email := sanEmail, isActive := true }
      (.success newUser, store ++ [newUser])

/-- Join a list of messages with `", "` (the `.join(', ')` of the
error-message interpolation in `ChatService.createUser`). -/
def joinCommaSpace : List Str → Str
  | [] => []
  | [x] => x
  | x :: xs => x ++ str ", " ++ joinCommaSpace xs

/-- `ChatService.createUser`: delegate to `UserService.createUser`; on
success re-read the row by its fresh id (which resolves to the row just
inserted); on failure fall back to `findOne({ where: { username } })`
with the RAW (unsanitized) username and return that row if present,
otherwise throw. -/
def chatServiceCreateUser (store : UserStore) (username : Str) (email : Option Str) :
    Except Str (User × UserStore) :=
  match userServiceCreateUser store username email with
  | (.success u, store') => .ok (u, store')
  | (.failure errs, _) =>
    match findByUsername store username with
    | some existing => .ok (existing, store)
    | none => .error (str "Failed to create user: " ++ joinCommaSpace (errs.map (·.message)))

/-- The reserved AI-assistant username literal. -/
def aiUsernameStr : Str := str "ai-assistant"

/-- The reserved AI-assistant email literal. -/
def aiEmailStr : Str := str "ai@vibe-coding.com"

/-- A direct `userRepo.save` of a new row: the store-level unique
constraint on `username` (from the `User` entity) rejects the insert
when a row with that username already exists. -/
def saveWithUniqueUsername (store : UserStore) (u : User) : Except Unit UserStore :=
  if (findByUsername store u.username).isSome then .error () else .ok (store ++ [u])

/-- The `aiUser === null` branch of `ChatService.ensureAIAssistantUser`
(the code run when the initial lookup found no row): try
`UserService.createUser`; a failure result raises, is caught, and the
catch block saves the AI user directly through the repository (only the
store's username constraint applies); a failing fallback save
propagates. The AI-message migration touches only the message table
and is modelled separately (`migrateAIMessages`). -/
def ensureAIAssistantUserAfterMiss (store : UserStore) : Except Unit (User × UserStore) :=
  match userServiceCreateUser store aiUsernameStr (some aiEmailStr) with
  | (.success u, store') => .ok (u, store')
  | (.failure _, store') =>
    let fallbackUser : User :=
      { id := freshIdOf store', username := aiUsernameStr, email := some aiEmailStr,
        isActive := true }
    match saveWithUniqueUsername store' fallbackUser with
    | .ok store'' => .ok (fallbackUser, store'')
    | .error _ => .error ()

/-- `ChatService.ensureAIAssistantUser`: return the existing
`ai-assistant` row if present, otherwise run the creation branch. -/
def ensureAIAssistantUser (store : UserStore) : Except Unit (User × UserStore) :=
  match findByUsername store aiUsernameStr with
  | some u => .ok (u, store)
  | none => ensureAIAssistantUserAfterMiss store

/-- The filter of `ChatService.migrateAIMessages`:
`where: { userId: 'ai-assistant', type: MessageType.AI }`. -/
def isPlaceholderAIMessage (m : Message) : Bool :=
  m.userId == aiUsernameStr && m.type == MessageType.ai

/-- The per-row update of the migration loop: point a placeholder AI
message at the resolved AI user id, leave every other row unchanged. -/
def migrateRewrite (aiUserId : Str) (m : Message) : Message :=
  if isPlaceholderAIMessage m then { m with userId := aiUserId } else m

/-- The try-block of `ChatService.migrateAIMessages`: find the
placeholder rows; when some exist, persist the rewritten rows in one
`save` call (whose outcome `saveOk` models store success or failure);
when none exist no save is attempted. -/
def migrateAIMessagesTry (msgs : List Message) (aiUserId : Str) (saveOk : Bool) :
    Except Unit (List Message) :=
  let oldAIMessages := msgs.filter isPlaceholderAIMessage
  if oldAIMessages.length > 0 then
    if saveOk then .ok (msgs.map (migrateRewrite aiUserId)) else .error ()
  else .ok msgs

/-- `ChatService.migrateAIMessages`: the catch block logs and swallows
any error of the try-block, leaving the table as it was; the operation
itself never raises. -/
def migrateAIMessages (msgs : List Message) (aiUserId : Str) (saveOk : Bool) : List Message :=
  match migrateAIMessagesTry msgs aiUserId saveOk with
  | .ok msgs' => msgs'
  | .error _ => msgs

/-- The provider fallback chain of `ChatService.generateAIResponse` is
driven by these two attempts. -/
inductive ProviderTag where
  | langchain
  | openai
deriving DecidableEq

/-- The fixed hardcoded final fallback text of
`ChatService.generateAIResponse`, verbatim. -/
def movieFallbackText : Str :=
  str "I'm sorry, I'm having trouble connecting to my AI services right now. Here are some popular movie recommendations:\n\n**The Shawshank Redemption (1994)** - A powerful story of hope and friendship\n**Inception (2010)** - Mind-bending sci-fi thriller by Christopher Nolan  \n**Spirited Away (2001)** - Beautiful animated film from Studio Ghibli\n**Parasite (2019)** - Brilliant Korean thriller about class and society\n\nWhat type of movies do you usually enjoy?"

/-- The environment of one `generateAIResponse` invocation: the two
providers' configuration state and the outcome each provider call would
have (an `Except` models a call that either resolves or rejects). -/
structure ProviderEnv where
  langchainConfigured : Bool
  openaiAvailable : Bool
  langchainCall : Str → List Message → Except Unit Str
  openaiCall : Str → List Message → Except Unit Str

/-- `LangchainAIService.isConfigured`:
`!!process.env.GROQ_API_KEY && !!process.env.TMDB_API_KEY`. -/
def langchainIsConfigured (groqApiKey tmdbApiKey : Option Str) : Bool :=
  truthyStr groqApiKey && truthyStr tmdbApiKey

/-- `OpenAIService.isAvailable`: the service is initialized (and the
client constructed) exactly when `OPENAI_API_KEY` is present and not
blank after trimming. -/
def openaiIsAvailable (openaiApiKey : Option Str) : Bool :=
  match openaiApiKey with
  | none => false
  | some k => !(jsTrim k).isEmpty

/-- The OpenAI stage of `generateAIResponse`: guarded by
`openaiService.isAvailable()`; a successful call's text is returned, a
rejected call falls through to the hardcoded fallback. The second
component records which providers were actually called. -/
def openaiStage (env : ProviderEnv) (userMessage : Str) (history : List Message)
    (attempted : List ProviderTag) : Str × List ProviderTag :=
  if env.openaiAvailable then
    match env.openaiCall userMessage history with
    | .ok s => (s, attempted ++ [ProviderTag.openai])
    | .error _ => (movieFallbackText, attempted ++ [ProviderTag.openai])
  else (movieFallbackText, attempted)

/-- `ChatService.generateAIResponse`: try Langchain/Groq first when
configured (a rejection is caught and falls through), then OpenAI when
available, then the hardcoded fallback text. -/
def generateAIResponse (env : ProviderEnv) (userMessage : Str) (history : List Message) :
    Str × List ProviderTag :=
  if env.langchainConfigured then
    match env.langchainCall userMessage history with
    | .ok s => (s, [ProviderTag.langchain])
    | .error _ => openaiStage env userMessage history [ProviderTag.langchain]
  else openaiStage env userMessage history []

/-- The rows of a room, in insertion order
(`where: { chatRoomId }` of `getChatRoomMessages`). -/
def roomMessages (msgs : List Message) (roomId : Str) : List Message :=
  msgs.filter (fun m => m.chatRoomId == roomId)

/-- The comparator of `order: { createdAt: 'ASC' }`. -/
def createdAtLe (a b : Message) : Bool := Nat.ble a.createdAt b.createdAt

/-- Relational embedding of
`messageRepo.find({ where: { chatRoomId }, order: { createdAt: 'ASC' } })`:
SQL `ORDER BY` on one column constrains only that column, so a valid
result is any permutation of the room's rows that is non-decreasing in
`createdAt`; rows with equal timestamps may come back in any order. -/
def getChatRoomMessagesResult (msgs : List Message) (roomId : Str) (res : List Message) : Prop :=
  res.Perm (roomMessages msgs roomId) ∧
    res.Pairwise (fun a b => a.createdAt ≤ b.createdAt)

/-- Stable insertion of an element into a list sorted by `le`: the new
element goes before the first element it compares `le` to. -/
def insertStable (le : Message → Message → Bool) (a : Message) : List Message → List Message
  | [] => [a]
  | b :: bs => if le a b then a :: b :: bs else b :: insertStable le a bs

/-- Stable insertion sort by `le` (ties keep their input order). -/
def sortStable (le : Message → Message → Bool) : List Message → List Message
  | [] => []
  | a :: as => insertStable le a (sortStable le as)

/-- Defined from the spec's words, for comparison with the query
embedding: the room history sorted by creation timestamp with ties
broken by insertion order (the unique such permutation, obtained by a
stable sort of the insertion-ordered rows). -/
def historyWithInsertionTieBreak (msgs : List Message) (roomId : Str) : List Message :=
  sortStable createdAtLe (roomMessages msgs roomId)

/-- `userRepo`-side lookup used by the `get_messages` relation join:
the author row referenced by a message, if any. -/
def userById (store : UserStore) (i : Str) : Option User :=
  store.find? (fun u => u.id == i)

/-- The username field emitted by the `get_messages` handler:
`message.user?.username || (message.type === MessageType.AI ? 'AI Assistant' : 'Unknown User')`.
JavaScript `||` falls through both when the author row is missing and
when its username is the (falsy) empty string. -/
def displayUsername (author : Option User) (t : MessageType) : Str :=
  let fallbackName := if t = MessageType.ai then str "AI Assistant" else str "Unknown User"
  match author with
  | some u => if u.username.isEmpty then fallbackName else u.username
  | none => fallbackName

/-- Shape of one element of the `messages_list` payload. -/
structure MessageView where
  id : Str
  content : Str
  type : MessageType
  userId : Str
  username : Str
  createdAt : Nat
deriving DecidableEq

/-- The projection of one message row performed by the `get_messages`
handler (the relation join resolves the author through `userById`). -/
def projectMessage (users : UserStore) (m : Message) : MessageView :=
  { id := m.id, content := m.content, type := m.type, userId := m.userId,
    username := displayUsername (userById users m.userId) m.type,
    createdAt := m.createdAt }

/-- The `messages_list` payload of the `get_messages` handler: one view
per message of the room history, in order. -/
def getMessagesProjection (users : UserStore) (msgs : List Message) : List MessageView :=
  msgs.map (projectMessage users)

/-- Server→client events relevant to the `join_room` handler. -/
inductive ServerEvent where
  | room_joined (roomId : Str)
  | messages_list (views : List MessageView)
  | errorNotice (message : Str)
deriving DecidableEq

/-- Observable outcome of one `join_room` handler run: the membership
record made by `socket.join`, the per-connection data fields, the
events emitted to the joining connection, and the user table after the
run. -/
structure JoinRoomOutcome where
  joinedRoom : Option Str
  socketUserId : Option Str
  socketUsername : Option Str
  emitted : List ServerEvent
  store : UserStore
deriving DecidableEq

/-- The `join_room` handler of `setupSocketHandlers`: record membership
and the connection's user id (both happen before the awaited call),
resolve/create the identity `user_<userId>` through
`ChatService.createUser`, then acknowledge with `room_joined`; a thrown
identity resolution is caught and reported as the generic
`'Failed to join room'` notice. -/
def joinRoomHandler (store : UserStore) (roomId userId : Str) : JoinRoomOutcome :=
  match chatServiceCreateUser store (str "user_" ++ userId) none with
  | .ok (u, store') =>
    { joinedRoom := some roomId, socketUserId := some userId,
      socketUsername := some u.username,
      emitted := [ServerEvent.room_joined roomId], store := store' }
  | .error _ =>
    { joinedRoom := some roomId, socketUserId := some userId, socketUsername := none,
      emitted := [ServerEvent.errorNotice (str "Failed to join room")], store := store }

/-- No two rows of the user table share a username. -/
def uniqueUsernames (s : UserStore) : Prop :=
  s.Pairwise (fun a b => a.username ≠ b.username)

/-- No two rows of the user table share a truthy (non-empty) email. -/
def uniqueTruthyEmails (s : UserStore) : Prop :=
  s.Pairwise (fun a b => ∀ e : Str, e ≠ [] → a.email = some e → b.email ≠ some e)

/-- Number of reserved AI-assistant rows in the user table. -/
def countAIUsers (s : UserStore) : Nat :=
  (s.filter (fun u => u.username == aiUsernameStr)).length

/-- Pair of messages with equal creation timestamps and unordered
uuid-style identifiers, used to exercise the history ordering. -/
def tieMsgA : Message :=
  ⟨str "b7e6a1c4", str "first", MessageType.user, 5, str "u1", str "r1"⟩

/-- Second message of the equal-timestamp pair; inserted after
`tieMsgA` yet carrying a smaller uuid string. -/
def tieMsgB : Message :=
  ⟨str "03c9d2f7", str "second", MessageType.user, 5, str "u1", str "r1"⟩

/-- A provider environment in which both providers are configured and
every provider call rejects. -/
def allFailEnv : ProviderEnv :=
  ⟨true, true, fun _ _ => .error (), fun _ _ => .error ()⟩

/-- A user row whose email coincides with the AI assistant's email. -/
def bobUser : User :=
  ⟨str "uid-bob", str "bob", some (str "ai@vibe-coding.com"), true⟩

/-- The AI-assistant row created by a successful bootstrap from an
empty user table. -/
def aiSeedUser : User := ⟨str "uid-0", aiUsernameStr, some aiEmailStr, true⟩

/-- The AI-assistant row written by the fallback direct save when the
table already holds `bobUser`. -/
def aiFallbackAfterBob : User := ⟨str "uid-1", aiUsernameStr, some aiEmailStr, true⟩

/-- A stored user row whose username is the empty string. -/
def emptyNameUser : User := ⟨str "u1", [], none, true⟩

/-- A human message authored by `emptyNameUser`. -/
def anonMsg : Message :=
  ⟨str "m1", str "hi", MessageType.user, 1, str "u1", str "r1"⟩

/-- The `john_doe` row produced by the first creation call of the
duplicate-username scenario. -/
def johnDoeUser : User := ⟨str "uid-0", str "john_doe", none, true⟩

/-- The row created by `chatServiceCreateUser [] (str "AB") none`:
the stored username is the normalized `ab`. -/
def abUser : User := ⟨str "uid-0", str "ab", none, true⟩

theorem perm_insertStable (le : Message → Message → Bool) (a : Message) (l : List Message) :
    (insertStable le a l).Perm (a :: l) := by
  induction l with
  | nil => simp [insertStable]
  | cons b bs ih =>
    by_cases h : le a b
    · simp [insertStable, h]
    · simp only [insertStable, h, if_neg, Bool.not_eq_true]
      exact (ih.cons b).trans (List.Perm.swap a b bs)

theorem mem_insertStable (le : Message → Message → Bool) (a x : Message) (l : List Message) :
    x ∈ insertStable le a l ↔ x = a ∨ x ∈ l := by
  rw [(perm_insertStable le a l).mem_iff]
  simp

theorem pairwise_insertStable (le : Message → Message → Bool)
    (htrans : ∀ x y z, le x y = true → le y z = true → le x z = true)
    (htotal : ∀ x y, le x y = true ∨ le y x = true)
    (a : Message) (l : List Message)
    (hl : l.Pairwise (fun x y => le x y = true)) :
    (insertStable le a l).Pairwise (fun x y => le x y = true) := by
  induction l with
  | nil => simp [insertStable]
  | cons b bs ih =>
    rcases List.pairwise_cons.mp hl with ⟨hb, hbs⟩
    by_cases h : le a b
    · simp only [insertStable, h, if_pos]
      refine List.pairwise_cons.mpr ⟨?_, hl⟩
      intro y hy
      rcases List.mem_cons.mp hy with rfl | hy
      · exact h
      · exact htrans a b y h (hb y hy)
    · simp only [insertStable, h, if_neg, Bool.not_eq_true]
      refine List.pairwise_cons.mpr ⟨?_, ih hbs⟩
      intro y hy
      rcases (mem_insertStable le a y bs).mp hy with rfl | hy
      · rcases htotal y b with hyb | hby
        · exact absurd hyb (by simpa using h)
        · exact hby
      · exact hb y hy

theorem perm_sortStable (le : Message → Message → Bool) (l : List Message) :
    (sortStable le l).Perm l := by
  induction l with
  | nil => simp [sortStable]
  | cons a as ih =>
    exact (perm_insertStable le a (sortStable le as)).trans (ih.cons a)

theorem pairwise_sortStable (le : Message → Message → Bool)
    (htrans : ∀ x y z, le x y = true → le y z = true → le x z = true)
    (htotal : ∀ x y, le x y = true ∨ le y x = true)
    (l : List Message) :
    (sortStable le l).Pairwise (fun x y => le x y = true) := by
  induction l with
  | nil => simp [sortStable]
  | cons a as ih => exact pairwise_insertStable le htrans htotal a _ ih

theorem createdAtLe_trans (x y z : Message)
    (h1 : createdAtLe x y = true) (h2 : createdAtLe y z = true) : createdAtLe x z = true := by
  simp only [createdAtLe, Nat.ble_eq] at h1 h2 ⊢
  exact Nat.le_trans h1 h2

theorem createdAtLe_total (x y : Message) :
    createdAtLe x y = true ∨ createdAtLe y x = true := by
  simp only [createdAtLe, Nat.ble_eq]
  exact Nat.le_total x.createdAt y.createdAt

/-- C4 (amended): `getChatRoomMessages(roomId)` returns the room's
messages in non-decreasing creation-timestamp order — some valid result
always exists, and every valid result of the embedded query is
non-decreasing in `createdAt`. The order of rows with equal timestamps
is NOT constrained by the query (no tie-break is specified). -/
theorem getChatRoomMessages_sorted_by_createdAt (msgs : List Message) (roomId : Str) :
    getChatRoomMessagesResult msgs roomId (historyWithInsertionTieBreak msgs roomId) ∧
      ∀ res, getChatRoomMessagesResult msgs roomId res →
        res.Pairwise (fun a b => a.createdAt ≤ b.createdAt) := by
  constructor
  · constructor
    · exact perm_sortStable createdAtLe (roomMessages msgs roomId)
    · refine (pairwise_sortStable createdAtLe createdAtLe_trans createdAtLe_total _).imp ?_
      intro a b h
      simpa [createdAtLe, Nat.ble_eq] using h
  · intro res hres
    exact hres.2

/-- Witness for C4's theorem at a concrete store: the valid result
`[tieMsgB, tieMsgA]` is non-decreasing in `createdAt`. -/
theorem getChatRoomMessages_sorted_by_createdAt_witness :
    List.Pairwise (fun a b : Message => a.createdAt ≤ b.createdAt) [tieMsgB, tieMsgA] :=
  (getChatRoomMessages_sorted_by_createdAt [tieMsgA, tieMsgB] (str "r1")).2
    [tieMsgB, tieMsgA] ⟨by decide, by decide⟩

/-- C4 (counterexample): with two same-room messages sharing a creation
timestamp, the reversed list `[tieMsgB, tieMsgA]` is a valid result of
the embedded query, yet it differs from the spec's
timestamp-then-insertion-order listing — the query admits results that
break ties against insertion order (and the uuid identifiers carry no
monotonic tie-break either). -/
theorem getChatRoomMessages_tie_break_counterexample :
    getChatRoomMessagesResult [tieMsgA, tieMsgB] (str "r1") [tieMsgB, tieMsgA] ∧
      [tieMsgB, tieMsgA] ≠ historyWithInsertionTieBreak [tieMsgA, tieMsgB] (str "r1") := by
  exact ⟨⟨by decide, by decide⟩, by decide⟩

/-- C1: the recommendation pipeline never throws — `generateAIResponse`
is a total function of the provider outcomes; whenever each provider is
unconfigured or its call rejects, the result is exactly the hardcoded
multi-recommendation fallback text, which is non-empty. -/
theorem generateAIResponse_never_throws_fallback (env : ProviderEnv)
    (userMessage : Str) (history : List Message)
    (h1 : env.langchainConfigured = false ∨ env.langchainCall userMessage history = .error ())
    (h2 : env.openaiAvailable = false ∨ env.openaiCall userMessage history = .error ()) :
    (generateAIResponse env userMessage history).1 = movieFallbackText ∧
      movieFallbackText ≠ [] := by
  refine ⟨?_, by decide⟩
  cases hlc : env.langchainConfigured with
  | false =>
    cases hoa : env.openaiAvailable with
    | false => simp [generateAIResponse, openaiStage, hlc, hoa]
    | true =>
      rcases h2 with h2 | h2
      · rw [h2] at hoa; cases hoa
      · simp [generateAIResponse, openaiStage, hlc, hoa, h2]
  | true =>
    rcases h1 with h1 | h1
    · rw [h1] at hlc; cases hlc
    · cases hoa : env.openaiAvailable with
      | false => simp [generateAIResponse, openaiStage, hlc, hoa, h1]
      | true =>
        rcases h2 with h2 | h2
        · rw [h2] at hoa; cases hoa
        · simp [generateAIResponse, openaiStage, hlc, hoa, h1, h2]

/-- Witness for C1's theorem: with both providers configured and both
calls rejecting, the pipeline returns the non-empty fallback text. -/
theorem generateAIResponse_never_throws_fallback_witness :
    (generateAIResponse allFailEnv (str "hi") []).1 = movieFallbackText ∧
      movieFallbackText ≠ [] :=
  generateAIResponse_never_throws_fallback allFailEnv (str "hi") []
    (Or.inr rfl) (Or.inr rfl)

/-- C6: an unconfigured provider is never called. When the Groq or TMDB
credential is missing (`LangchainAIService.isConfigured` false), the
Langchain provider is absent from the attempted-call trace, and when
the OpenAI key is missing or blank (`OpenAIService.isAvailable` false),
the OpenAI provider is absent from the trace. -/
theorem generateAIResponse_skips_unconfigured_providers
    (groqApiKey tmdbApiKey openaiApiKey : Option Str)
    (lcCall oaCall : Str → List Message → Except Unit Str)
    (userMessage : Str) (history : List Message) :
    (langchainIsConfigured groqApiKey tmdbApiKey = false →
      ProviderTag.langchain ∉
        (generateAIResponse
          ⟨langchainIsConfigured groqApiKey tmdbApiKey, openaiIsAvailable openaiApiKey,
            lcCall, oaCall⟩ userMessage history).2) ∧
    (openaiIsAvailable openaiApiKey = false →
      ProviderTag.openai ∉
        (generateAIResponse
          ⟨langchainIsConfigured groqApiKey tmdbApiKey, openaiIsAvailable openaiApiKey,
            lcCall, oaCall⟩ userMessage history).2) := by
  constructor
  · intro h
    cases hoa : openaiIsAvailable openaiApiKey with
    | false => simp [generateAIResponse, openaiStage, h, hoa]
    | true =>
      cases hcall : oaCall userMessage history with
      | ok s => simp [generateAIResponse, openaiStage, h, hoa, hcall]
      | error e => simp [generateAIResponse, openaiStage, h, hoa, hcall]
  · intro h
    cases hlc : langchainIsConfigured groqApiKey tmdbApiKey with
    | false => simp [generateAIResponse, openaiStage, hlc, h]
    | true =>
      cases hcall : lcCall userMessage history with
      | ok s => simp [generateAIResponse, openaiStage, hlc, h, hcall]
      | error e => simp [generateAIResponse, openaiStage, hlc, h, hcall]

/-- Witness for C6's theorem: with no credentials at all, neither
provider appears in the attempted-call trace. -/
theorem generateAIResponse_skips_unconfigured_providers_witness :
    ProviderTag.langchain ∉
      (generateAIResponse
        ⟨langchainIsConfigured none none, openaiIsAvailable none,
          fun _ _ => .error (), fun _ _ => .error ()⟩ (str "hi") []).2 :=
  (generateAIResponse_skips_unconfigured_providers none none none
    (fun _ _ => .error ()) (fun _ _ => .error ()) (str "hi") []).1 rfl

/-- C7: once the AI identity's id is known, the migration rewrites
every AI-kind message authored by the placeholder `'ai-assistant'` to
that id (leaving all other rows unchanged) when the store write
succeeds, and when the store write fails the error is absorbed — the
table is left as it was and nothing is raised (the operation is total). -/
theorem migrateAIMessages_rewrites_all_and_absorbs_failures
    (msgs : List Message) (aiUserId : Str) :
    migrateAIMessages msgs aiUserId true = msgs.map (migrateRewrite aiUserId) ∧
      migrateAIMessages msgs aiUserId false = msgs := by
  by_cases h : msgs.filter isPlaceholderAIMessage = []
  · have hid : msgs.map (migrateRewrite aiUserId) = msgs := by
      have hnone := List.filter_eq_nil_iff.mp h
      calc msgs.map (migrateRewrite aiUserId) = msgs.map id := by
            refine List.map_congr_left ?_
            intro m hm
            simp [migrateRewrite, hnone m hm]
        _ = msgs := List.map_id msgs
    constructor
    · simp [migrateAIMessages, migrateAIMessagesTry, h, hid]
    · simp [migrateAIMessages, migrateAIMessagesTry, h]
  · have hlen : 0 < (msgs.filter isPlaceholderAIMessage).length := List.length_pos.mpr h
    constructor
    · simp [migrateAIMessages, migrateAIMessagesTry, hlen]
    · simp [migrateAIMessages, migrateAIMessagesTry, hlen]

theorem userServiceCreateUser_cases (store : UserStore) (un : Str) (em : Option Str) :
    (∃ errs, errs ≠ [] ∧ userServiceCreateUser store un em = (.failure errs, store)) ∨
    (userServiceCreateUser store un em =
        (.success ⟨freshIdOf store, sanitizeUsername un, sanitizeEmail em, true⟩,
          store ++ [⟨freshIdOf store, sanitizeUsername un, sanitizeEmail em, true⟩]) ∧
      findByUsername store (sanitizeUsername un) = none ∧
      ∀ e, sanitizeEmail em = some e → e ≠ [] → findByEmail store e = none) := by
  by_cases h1 : validateUserData (sanitizeUsername un) (sanitizeEmail em) = []
  · by_cases h2 : (findByUsername store (sanitizeUsername un)).isSome = true
    · refine Or.inl ⟨[⟨str "username", str "Username already exists"⟩], by simp, ?_⟩
      simp [userServiceCreateUser, h1, h2]
    · have h2' : findByUsername store (sanitizeUsername un) = none :=
        Option.not_isSome_iff_eq_none.mp h2
      cases hse : sanitizeEmail em with
      | none =>
        refine Or.inr ⟨?_, h2', ?_⟩
        · rw [hse] at h1
          simp [userServiceCreateUser, h1, h2', hse]
        · intro e he
          exact Option.noConfusion he
      | some e =>
        rw [hse] at h1
        by_cases h4 : (!e.isEmpty && (findByEmail store e).isSome) = true
        · refine Or.inl ⟨[⟨str "email", str "Email already exists"⟩], by simp, ?_⟩
          simp [userServiceCreateUser, h1, h2', hse, h4]
        · refine Or.inr ⟨?_, h2', ?_⟩
          · simp [userServiceCreateUser, h1, h2', hse, h4]
          · intro e' he' hne
            injection he' with hee
            subst hee
            have hie : e.isEmpty = false := List.isEmpty_eq_false.mpr hne
            cases hs : (findByEmail store e).isSome with
            | false => exact Option.not_isSome_iff_eq_none.mp (by simp [hs])
            | true => exact absurd (by simp [hie, hs]) h4
  · refine Or.inl ⟨validateUserData (sanitizeUsername un) (sanitizeEmail em), h1, ?_⟩
    simp [userServiceCreateUser, h1]

/-- C5: user creation reports expected failures as a non-empty typed
error list (field plus message) instead of raising; and in the concrete
scenario, creating `john_doe` succeeds with an id assigned and
`isActive = true`, while creating `john_doe` again fails with exactly
`{field: "username", message: "Username already exists"}`. -/
theorem userServiceCreateUser_typed_errors_duplicate_scenario :
    (∀ (store : UserStore) (un : Str) (em : Option Str) (errs : List UserValidationError),
        (userServiceCreateUser store un em).1 = .failure errs → errs ≠ []) ∧
    userServiceCreateUser [] (str "john_doe") none = (.success johnDoeUser, [johnDoeUser]) ∧
    userServiceCreateUser [johnDoeUser] (str "john_doe") none =
      (.failure [⟨str "username", str "Username already exists"⟩], [johnDoeUser]) := by
  refine ⟨?_, by decide, by decide⟩
  intro store un em errs h
  rcases userServiceCreateUser_cases store un em with ⟨errs0, hne, heq⟩ | ⟨heq, _, _⟩
  · rw [heq] at h
    simp only [CreateUserResult.failure.injEq] at h
    exact h ▸ hne
  · rw [heq] at h
    simp at h

/-- Witness for C5's theorem: the error list of the duplicate-username
failure is indeed non-empty. -/
theorem userServiceCreateUser_typed_errors_duplicate_scenario_witness :
    ([⟨str "username", str "Username already exists"⟩] : List UserValidationError) ≠ [] :=
  userServiceCreateUser_typed_errors_duplicate_scenario.1 [johnDoeUser] (str "john_doe") none
    [⟨str "username", str "Username already exists"⟩] (by decide)

/-- C3 (counterexample): `ensureUser` is NOT idempotent for every valid
name. `"AB"` matches the charset/length rule; the first call stores the
normalized row `ab`, but the second call's duplicate-recovery lookup
uses the raw (unnormalized) name `AB`, finds nothing, and throws
instead of returning the same identifier. -/
theorem chatServiceCreateUser_idempotence_counterexample :
    chatServiceCreateUser [] (str "AB") none = .ok (abUser, [abUser]) ∧
      chatServiceCreateUser [abUser] (str "AB") none =
        .error (str "Failed to create user: Username already exists") :=
  ⟨rfl, rfl⟩

/-- C3 (amended): for every valid name that is already in normalized
form (equal to its trim-plus-lowercase), `ensureUser` is idempotent:
both calls return the same user row, and the second call leaves the
table unchanged (no new row). -/
theorem chatServiceCreateUser_idempotent_normalized (store : UserStore) (n : Str)
    (hnorm : sanitizeUsername n = n) (hvalid : validateUserData n none = []) :
    ∃ u s1, chatServiceCreateUser store n none = .ok (u, s1) ∧
      chatServiceCreateUser s1 n none = .ok (u, s1) := by
  have hvalid' : validateUserData (sanitizeUsername n) (sanitizeEmail none) = [] := by
    rw [hnorm]
    exact hvalid
  cases hfind : findByUsername store n with
  | some u0 =>
    have hcall : chatServiceCreateUser store n none = .ok (u0, store) := by
      simp [chatServiceCreateUser, userServiceCreateUser, hvalid', hnorm, hfind,
        sanitizeEmail, hvalid]
    exact ⟨u0, store, hcall, hcall⟩
  | none =>
    refine ⟨⟨freshIdOf store, n, none, true⟩, store ++ [⟨freshIdOf store, n, none, true⟩], ?_, ?_⟩
    · simp [chatServiceCreateUser, userServiceCreateUser, hvalid', hnorm, hfind,
        sanitizeEmail, hvalid]
    · have hfind1 : findByUsername (store ++ [(⟨freshIdOf store, n, none, true⟩ : User)]) n =
          some ⟨freshIdOf store, n, none, true⟩ := by
        rw [findByUsername, List.find?_append]
        rw [findByUsername] at hfind
        rw [hfind]
        simp [List.find?]
      simp [chatServiceCreateUser, userServiceCreateUser, hvalid', hnorm, hfind1,
        sanitizeEmail, hvalid]

/-- Witness for C3's amended theorem at the already-normalized valid
name `ab` and the empty table. -/
theorem chatServiceCreateUser_idempotent_normalized_witness :
    ∃ u s1, chatServiceCreateUser [] (str "ab") none = .ok (u, s1) ∧
      chatServiceCreateUser s1 (str "ab") none = .ok (u, s1) :=
  chatServiceCreateUser_idempotent_normalized [] (str "ab") (by decide) (by decide)

theorem sanitize_aiUsername : sanitizeUsername aiUsernameStr = aiUsernameStr := by decide

theorem uniqueUsernames_append (s : UserStore) (x : User)
    (hx : ∀ a ∈ s, a.username ≠ x.username) (hs : uniqueUsernames s) :
    uniqueUsernames (s ++ [x]) := by
  rw [uniqueUsernames, List.pairwise_append]
  refine ⟨hs, List.pairwise_singleton _ _, ?_⟩
  intro a ha b hb
  rcases List.mem_singleton.mp hb with rfl
  exact hx a ha

theorem uniqueTruthyEmails_append (s : UserStore) (x : User)
    (hx : ∀ a ∈ s, ∀ e : Str, e ≠ [] → a.email = some e → x.email ≠ some e)
    (hs : uniqueTruthyEmails s) :
    uniqueTruthyEmails (s ++ [x]) := by
  rw [uniqueTruthyEmails, List.pairwise_append]
  refine ⟨hs, List.pairwise_singleton _ _, ?_⟩
  intro a ha b hb
  rcases List.mem_singleton.mp hb with rfl
  exact hx a ha

/-- C8 (counterexample): the fallback save inside
`ensureAIAssistantUser` persists a user row without any email
uniqueness check. Starting from a table containing `bobUser` (whose
email is the AI assistant's email), the bootstrap succeeds through the
fallback and leaves two distinct rows sharing the non-null email —
refuting the claim that every persistence path checks uniqueness of
the contact address before writing. -/
theorem ensureAIAssistantUser_duplicate_email_counterexample :
    ensureAIAssistantUser [bobUser] = .ok (aiFallbackAfterBob, [bobUser, aiFallbackAfterBob]) ∧
      bobUser.email = some aiEmailStr ∧ aiFallbackAfterBob.email = some aiEmailStr ∧
      bobUser ≠ aiFallbackAfterBob ∧
      ¬ uniqueTruthyEmails [bobUser, aiFallbackAfterBob] := by
  refine ⟨rfl, rfl, rfl, by decide, ?_⟩
  intro h
  rcases List.pairwise_cons.mp h with ⟨hr, _⟩
  exact (hr aiFallbackAfterBob (by simp) aiEmailStr (by decide) rfl) rfl

/-- C8 (amended): `UserService.createUser` normalizes and checks both
username and truthy-email uniqueness before writing, so it preserves
both invariants; `ensureAIAssistantUser` preserves username uniqueness
on every path (its fallback save is still guarded by the store-level
username constraint) — but the fallback performs no email check, so
the email invariant can be broken there. -/
theorem user_persistence_uniqueness_amended (store : UserStore) (un : Str) (em : Option Str) :
    (uniqueUsernames store → uniqueUsernames (userServiceCreateUser store un em).2) ∧
    (uniqueTruthyEmails store → uniqueTruthyEmails (userServiceCreateUser store un em).2) ∧
    (uniqueUsernames store →
      ∀ u s', ensureAIAssistantUser store = .ok (u, s') → uniqueUsernames s') := by
  refine ⟨?_, ?_, ?_⟩
  · intro h
    rcases userServiceCreateUser_cases store un em with ⟨errs, _, heq⟩ | ⟨heq, hfindU, _⟩
    · rw [heq]
      exact h
    · rw [heq]
      refine uniqueUsernames_append store _ ?_ h
      intro a ha
      have := List.find?_eq_none.mp hfindU a ha
      simpa using this
  · intro h
    rcases userServiceCreateUser_cases store un em with ⟨errs, _, heq⟩ | ⟨heq, _, hfindE⟩
    · rw [heq]
      exact h
    · rw [heq]
      refine uniqueTruthyEmails_append store _ ?_ h
      intro a ha e he hae hxe
      have hnone := hfindE e hxe he
      have := List.find?_eq_none.mp hnone a ha
      simp at this
      exact this hae
  · intro h u s' hok
    unfold ensureAIAssistantUser at hok
    cases hfind : findByUsername store aiUsernameStr with
    | some u0 =>
      rw [hfind] at hok
      simp only [Except.ok.injEq, Prod.mk.injEq] at hok
      rcases hok with ⟨_, rfl⟩
      exact h
    | none =>
      rw [hfind] at hok
      unfold ensureAIAssistantUserAfterMiss at hok
      rcases userServiceCreateUser_cases store aiUsernameStr (some aiEmailStr) with
        ⟨errs, _, heq⟩ | ⟨heq, hfindU, _⟩
      · rw [heq] at hok
        simp only [saveWithUniqueUsername, hfind, Option.isSome_none, Bool.false_eq_true,
          if_false, Except.ok.injEq, Prod.mk.injEq] at hok
        rcases hok with ⟨_, rfl⟩
        refine uniqueUsernames_append store _ ?_ h
        intro a ha
        have := List.find?_eq_none.mp hfind a ha
        simpa using this
      · rw [heq] at hok
        simp only [Except.ok.injEq, Prod.mk.injEq] at hok
        rcases hok with ⟨_, rfl⟩
        refine uniqueUsernames_append store _ ?_ h
        intro a ha
        have := List.find?_eq_none.mp hfindU a ha
        simpa using this

/-- Witness for C8's amended theorem: creating a user in the empty
table preserves username uniqueness. -/
theorem user_persistence_uniqueness_amended_witness :
    uniqueUsernames (userServiceCreateUser [] (str "ab") none).2 :=
  (user_persistence_uniqueness_amended [] (str "ab") none).1 List.Pairwise.nil

/-- C9 (counterexample): a concurrent second caller of
`ensureAIAssistantUser` does not necessarily observe the winner's
identifier. Interleaving: caller B's initial lookup runs on the empty
table (finding nothing), caller A then completes the bootstrap, and B's
continuation (the creation branch) resumes on the table A produced —
`UserService.createUser` reports a duplicate, the raised error is
caught, and the fallback direct save hits the store-level unique
constraint, so B's call throws instead of returning the shared id. -/
theorem ensureAIAssistantUser_concurrent_caller_error_counterexample :
    findByUsername [] aiUsernameStr = none ∧
      ensureAIAssistantUser [] = .ok (aiSeedUser, [aiSeedUser]) ∧
      ensureAIAssistantUserAfterMiss [aiSeedUser] = .error () :=
  ⟨rfl, rfl, rfl⟩

/-- C9 (amended): the store-level unique constraint plus
read-then-create-or-return logic guarantees at most one reserved-agent
row — any caller that finds the row created observes exactly that row
(and the same identifier) with the table unchanged, and any successful
bootstrap from a table without the row yields exactly one
reserved-agent row; a concurrent caller that loses the race may fail
with an error rather than observe the identifier. -/
theorem ensureAIAssistantUser_single_row_agreement :
    (∀ (store : UserStore) (u : User), findByUsername store aiUsernameStr = some u →
        ensureAIAssistantUser store = .ok (u, store)) ∧
    (∀ store : UserStore, findByUsername store aiUsernameStr = none →
        ∀ u s', ensureAIAssistantUser store = .ok (u, s') →
          u.username = aiUsernameStr ∧ countAIUsers s' = 1) := by
  constructor
  · intro store u hf
    unfold ensureAIAssistantUser
    rw [hf]
  · intro store hf u s' hok
    have hfilter : store.filter (fun x => x.username == aiUsernameStr) = [] := by
      refine List.filter_eq_nil_iff.mpr ?_
      intro a ha
      exact List.find?_eq_none.mp hf a ha
    have hcountApp : ∀ x : User, x.username = aiUsernameStr → countAIUsers (store ++ [x]) = 1 := by
      intro x hx
      rw [countAIUsers, List.filter_append, hfilter]
      simp [hx]
    unfold ensureAIAssistantUser at hok
    rw [hf] at hok
    unfold ensureAIAssistantUserAfterMiss at hok
    rcases userServiceCreateUser_cases store aiUsernameStr (some aiEmailStr) with
      ⟨errs, _, heq⟩ | ⟨heq, hfindU, _⟩
    · rw [heq] at hok
      simp only [saveWithUniqueUsername, hf, Option.isSome_none, Bool.false_eq_true,
        if_false, Except.ok.injEq, Prod.mk.injEq] at hok
      rcases hok with ⟨rfl, rfl⟩
      exact ⟨rfl, hcountApp _ rfl⟩
    · rw [heq] at hok
      simp only [Except.ok.injEq, Prod.mk.injEq] at hok
      rcases hok with ⟨rfl, rfl⟩
      exact ⟨sanitize_aiUsername, hcountApp _ sanitize_aiUsername⟩

/-- Witness for C9's amended theorem: on a table already holding the
reserved row, the bootstrap returns that row and changes nothing. -/
theorem ensureAIAssistantUser_single_row_agreement_witness :
    ensureAIAssistantUser [aiSeedUser] = .ok (aiSeedUser, [aiSeedUser]) :=
  ensureAIAssistantUser_single_row_agreement.1 [aiSeedUser] aiSeedUser rfl

/-- C2 (counterexample): a successful `join_room` run emits exactly the
`room_joined` acknowledgment and never a `messages_list` payload — the
handler does not push the room history (the handler never even reads
the message table; history reaches a client only through its own
`get_messages` request). -/
theorem joinRoom_history_push_counterexample :
    (joinRoomHandler [] (str "r1") (str "alice")).emitted =
        [ServerEvent.room_joined (str "r1")] ∧
      ∀ views, ServerEvent.messages_list views ∉
        (joinRoomHandler [] (str "r1") (str "alice")).emitted := by
  have h : (joinRoomHandler [] (str "r1") (str "alice")).emitted =
      [ServerEvent.room_joined (str "r1")] := by decide
  refine ⟨h, ?_⟩
  intro views hmem
  rw [h] at hmem
  exact ServerEvent.noConfusion (List.mem_singleton.mp hmem)

/-- C2 (amended): for every `join_room` event whose identity resolution
succeeds, the handler records the connection's room membership, stores
the connection's user id, resolves/creates the sending identity
`user_<userId>`, and acknowledges the join to that connection — and
emits nothing else (in particular, no room history). -/
theorem joinRoom_membership_identity_ack_only (store : UserStore) (roomId userId : Str)
    (u : User) (store' : UserStore)
    (h : chatServiceCreateUser store (str "user_" ++ userId) none = .ok (u, store')) :
    joinRoomHandler store roomId userId =
      { joinedRoom := some roomId, socketUserId := some userId,
        socketUsername := some u.username,
        emitted := [ServerEvent.room_joined roomId], store := store' } := by
  unfold joinRoomHandler
  rw [h]

/-- Witness for C2's amended theorem at a concrete join of `alice`
into room `r1` on the empty table. -/
theorem joinRoom_membership_identity_ack_only_witness :
    joinRoomHandler [] (str "r1") (str "alice") =
      { joinedRoom := some (str "r1"), socketUserId := some (str "alice"),
        socketUsername := some (str "user_alice"),
        emitted := [ServerEvent.room_joined (str "r1")],
        store := [⟨str "uid-0", str "user_alice", none, true⟩] } :=
  joinRoom_membership_identity_ack_only [] (str "r1") (str "alice")
    ⟨str "uid-0", str "user_alice", none, true⟩
    [⟨str "uid-0", str "user_alice", none, true⟩] rfl

/-- C10 (counterexample): the `get_messages` projection uses JavaScript
`||`, so an author row that IS present but has an empty display name is
reported as `Unknown User` instead of its (empty) display name —
refuting the clause that a present author record's display name is
always used. -/
theorem getMessages_present_author_empty_name_counterexample :
    getMessagesProjection [emptyNameUser] [anonMsg] =
        [⟨str "m1", str "hi", MessageType.user, str "u1", str "Unknown User", 1⟩] ∧
      userById [emptyNameUser] (str "u1") = some emptyNameUser ∧
      emptyNameUser.username ≠ str "Unknown User" :=
  ⟨by decide, rfl, by decide⟩

/-- C10 (amended): the `get_messages` projection never fails: every
message of the history yields exactly one emitted view preserving id,
content, kind and author id; an unresolved author yields the username
`AI Assistant` for AI-kind messages and `Unknown User` otherwise; a
resolved author's display name is used when it is non-empty, while an
empty display name falls back to the same kind-based default. -/
theorem getMessages_username_resolution (users : UserStore) (msgs : List Message)
    (m : Message) (hm : m ∈ msgs) :
    ∃ v ∈ getMessagesProjection users msgs,
      v.id = m.id ∧ v.content = m.content ∧ v.type = m.type ∧ v.userId = m.userId ∧
      (userById users m.userId = none →
        v.username =
          if m.type = MessageType.ai then str "AI Assistant" else str "Unknown User") ∧
      (∀ u, userById users m.userId = some u → u.username ≠ [] → v.username = u.username) ∧
      (∀ u, userById users m.userId = some u → u.username = [] →
        v.username =
          if m.type = MessageType.ai then str "AI Assistant" else str "Unknown User") := by
  refine ⟨projectMessage users m, List.mem_map_of_mem _ hm, rfl, rfl, rfl, rfl, ?_, ?_, ?_⟩
  · intro h
    simp [projectMessage, displayUsername, h]
  · intro u hu hne
    have hie : u.username.isEmpty = false := List.isEmpty_eq_false.mpr hne
    simp [projectMessage, displayUsername, hu, hie]
  · intro u hu he
    have hie : u.username.isEmpty = true := by
      simp [List.isEmpty_iff, he]
    simp [projectMessage, displayUsername, hu, hie]

/-- Witness for C10's theorem: the message authored by the unresolvable
id `u1` is still emitted, as `Unknown User`. -/
theorem getMessages_username_resolution_witness :
    ∃ v ∈ getMessagesProjection [] [anonMsg],
      v.id = anonMsg.id ∧ v.content = anonMsg.content ∧ v.type = anonMsg.type ∧
      v.userId = anonMsg.userId ∧
      (userById [] anonMsg.userId = none →
        v.username =
          if anonMsg.type = MessageType.ai then str "AI Assistant" else str "Unknown User") ∧
      (∀ u, userById [] anonMsg.userId = some u → u.username ≠ [] → v.username = u.username) ∧
      (∀ u, userById [] anonMsg.userId = some u → u.username = [] →
        v.username =
          if anonMsg.type = MessageType.ai then str "AI Assistant" else str "Unknown User") :=
  getMessages_username_resolution [] [anonMsg] anonMsg (List.mem_singleton.mpr rfl)

end MovieRec
